import Mathlib

/-!
# Verification of the market-analysis engine

A shallow embedding of the competitive-analysis core of the
`coder4052/market_analysis` repository (files `src/app.py` and
`src/analysis_engine.py`), together with theorems settling the frozen
claims about it.

Modelling conventions:
* A pandas DataFrame is a `Table`: a list of present column names plus a
  list of rows whose fields are `Option`-valued (a `none` field models a
  NaN cell).  Numeric cells are modelled exactly as rationals (`ℚ`),
  abstracting IEEE-754 rounding.
* Display strings that merely format already-computed values
  (e.g. `f"{price:,.0f}원"` or emoji-decorated labels) are modelled as
  structured data: the computed numbers themselves plus small inductive
  tags for the classification part of the string.
* An uncaught Python exception is modelled by `Except.error ()`; code whose
  exceptions are all caught locally (bare `try`/`except` around a whole
  sub-analysis) is modelled by the total function it computes.
* `pd.Series.max()` / `.min()` / `.mean()` skip NaN, so they are modelled
  over the list of the non-`none` values of a column.
* Pandas `groupby` drops rows with NaN in any grouping key; equality
  comparisons with NaN are `False`.
-/

/-- First-occurrence deduplication, the order produced by pandas
`Series.unique()`. -/
def first_uniques {α : Type} [DecidableEq α] (l : List α) : List α :=
  l.foldl (fun acc a => if a ∈ acc then acc else acc ++ [a]) []

/-- Minimum of a list of rationals (`none` on the empty list), as computed by
`Series.min()` over the non-null cells. -/
def list_min : List ℚ → Option ℚ
  | [] => none
  | x :: xs =>
    match list_min xs with
    | none => some x
    | some m => some (min x m)

/-- Maximum of a list of rationals (`none` on the empty list), as computed by
`Series.max()` over the non-null cells. -/
def list_max : List ℚ → Option ℚ
  | [] => none
  | x :: xs =>
    match list_max xs with
    | none => some x
    | some m => some (max x m)

/-- One normalized spreadsheet row (a `ProductRecord`).  Each field holds the
cell of the corresponding column; `none` is a NaN cell (or a cell of a column
the row's source table did not have). -/
structure Row where
  brand : Option String := none
  productName : Option String := none
  volume : Option ℚ := none
  packCount : Option ℚ := none
  lowestPrice : Option ℚ := none
  unitPrice : Option ℚ := none
  isFactory : Option ℚ := none
  reviewCnt : Option ℚ := none
  rating : Option ℚ := none
  platform : Option String := none
deriving DecidableEq

/-- A DataFrame: the list of column names present, plus the rows.  A row field
is meaningful only when the matching column name is in `cols`; `combine_tables`
(pandas `concat`) masks the fields of absent columns to `none`. -/
structure Table where
  cols : List String
  rows : List Row
deriving DecidableEq

/-- `AppConfig.OUR_BRAND`. -/
def our_brand : String := "서로"

/-- `AppConfig.ANALYSIS_SETTINGS['volume_similarity_range']` (0.2). -/
def volume_similarity_range : ℚ := 1/5

/-- `AppConfig.ANALYSIS_SETTINGS['top_brands_count']`. -/
def top_brands_count : Nat := 10

/-- `AppConfig.ANALYSIS_SETTINGS['top_volume_combinations']`. -/
def top_volume_combinations : Nat := 10

/-- `AppConfig.ANALYSIS_SETTINGS['main_competitors_count']`. -/
def main_competitors_count : Nat := 3

/-- The four product-identity columns (`required_for_analysis` in the source). -/
def required_for_analysis : List String := ["브랜드", "제품명", "용량(ml)", "개수"]

/-- Candidate review-count column names, in search order. -/
def review_candidates : List String := ["리뷰 개수", "리뷰개수", "review_count", "리뷰수"]

/-- Candidate rating column names, in search order. -/
def rating_candidates : List String := ["평점", "평균평점", "rating", "별점"]

/-- Ordinary first-match column search: the loops of
`_find_review_rating_columns` in `analysis_engine.py`, and the review-column
loop of `_analyze_category` in `app.py` (each iteration either breaks with the
candidate or goes on to the next candidate). -/
def find_first_col (cands available : List String) : Option String :=
  cands.find? fun c => decide (c ∈ available)

/-- Outcome of the rating-column loop of `_analyze_category` in `app.py`. -/
inductive RatingSearch where
  | found (c : String)
  | earlyReturn
  | noCandidates
deriving DecidableEq

/-- The rating-column loop of `_analyze_category` in `app.py` (lines 147-160).
The `return` of the zero-filled result sits inside the loop body after the
`if`, so every iteration either breaks with the found column or returns from
the whole function: only the first candidate is ever inspected. -/
def rating_col_search (cands available : List String) : RatingSearch :=
  match cands with
  | [] => .noCandidates
  | c :: _ => if c ∈ available then .found c else .earlyReturn

/-- The rating column established by the loop when it did not return early. -/
def RatingSearch.toOption : RatingSearch → Option String
  | .found c => some c
  | _ => none

/-- The four market-position labels of `_determine_market_position`
(최저가 / 평균 이하 / 평균 이상 / 최고가), as machine-readable tags. -/
inductive Position where
  | lowest
  | belowAverage
  | aboveAverage
  | highest
deriving DecidableEq

/-- `_determine_market_position` (analysis_engine.py lines 43-62; the same
`if`/`elif` chain appears inline in `app.py` lines 433-444).  Returns the
position tag together with the emoji the source pairs with it. -/
def determine_market_position (our_price competitor_min competitor_avg competitor_max : ℚ) :
    Position × String :=
  if our_price ≤ competitor_min then (.lowest, "🎯")
  else if our_price ≤ competitor_avg then (.belowAverage, "📊")
  else if our_price ≤ competitor_max then (.aboveAverage, "📈")
  else (.highest, "💰")

/-- The comparison-tier label of `_find_best_competitors`.  Tier 2 carries the
computed volume bounds, which the source interpolates into the label string. -/
inductive CompTier where
  | exactTier
  | similarVolume (lo hi : ℚ)
  | sameCount
  | entireMarket
deriving DecidableEq

/-- Tier-1 cohort: identical volume and identical pack count (NaN cells never
compare equal). -/
def exact_competitors (our_volume our_count : ℚ) (competitor_platform_data : List Row) :
    List Row :=
  competitor_platform_data.filter fun r =>
    decide (r.volume = some our_volume) && decide (r.packCount = some our_count)

/-- Tier-2 cohort: volume within the inclusive ±20 % band and identical pack
count (a NaN volume fails both comparisons). -/
def similar_volume_competitors (our_volume our_count : ℚ)
    (competitor_platform_data : List Row) : List Row :=
  let volume_range := our_volume * volume_similarity_range
  let volume_range_min := our_volume - volume_range
  let volume_range_max := our_volume + volume_range
  competitor_platform_data.filter fun r =>
    (match r.volume with
     | some w => decide (volume_range_min ≤ w) && decide (w ≤ volume_range_max)
     | none => false) && decide (r.packCount = some our_count)

/-- Tier-3 cohort: identical pack count, any volume. -/
def same_count_competitors (our_count : ℚ) (competitor_platform_data : List Row) : List Row :=
  competitor_platform_data.filter fun r => decide (r.packCount = some our_count)

/-- `_find_best_competitors` (analysis_engine.py lines 878-924; the same
four-step fallback appears inline in `app.py` lines 381-419, where the tier-2
bounds are written `our_volume*0.8` / `our_volume*1.2` — equal to the
`our_volume ± our_volume*0.2` used here).  Returns the first non-empty cohort
with its tier label, or `none` when there are no competitors at all. -/
def find_best_competitors (our_volume our_count : ℚ)
    (competitor_platform_data : List Row) : Option (List Row × CompTier) :=
  let exact := exact_competitors our_volume our_count competitor_platform_data
  if ¬exact.isEmpty then some (exact, .exactTier)
  else
    let volume_range := our_volume * volume_similarity_range
    let volume_range_min := our_volume - volume_range
    let volume_range_max := our_volume + volume_range
    let similar := similar_volume_competitors our_volume our_count competitor_platform_data
    if ¬similar.isEmpty then some (similar, .similarVolume volume_range_min volume_range_max)
    else
      let same := same_count_competitors our_count competitor_platform_data
      if ¬same.isEmpty then some (same, .sameCount)
      else if ¬competitor_platform_data.isEmpty then
        some (competitor_platform_data, .entireMarket)
      else none

/-- One entry of the main-competitor detail list (`_get_competitor_details`).
The source renders each competitor as a display string; here the rendered
values are kept structurally.  `price = none` is the 가격정보없음 marker. -/
structure CompDetail where
  brand : Option String
  volume : Option ℚ
  count : Option ℚ
  price : Option ℚ
deriving DecidableEq

/-- `_get_competitor_details` (analysis_engine.py lines 64-88): details of the
first five cohort members; the caller keeps the first
`main_competitors_count` of them. -/
def competitor_details (competitors : List Row) : List CompDetail :=
  (competitors.take 5).map fun c => ⟨c.brand, c.volume, c.packCount, c.unitPrice⟩

/-- The per-product competitiveness record built by
`_perform_competitiveness_analysis`.  Numeric fields carry the values the
source formats into its display strings. -/
structure CompEntry where
  productName : String
  ourVolume : ℚ
  ourCount : ℚ
  ourUnitPrice : ℚ
  competitorAvg : ℚ
  competitorMin : ℚ
  competitorMax : ℚ
  priceGap : ℚ
  priceGapPercent : ℚ
  position : Position
  positionColor : String
  competitorCount : Nat
  comparisonTier : CompTier
  mainCompetitors : List CompDetail
deriving DecidableEq

/-- `_perform_competitiveness_analysis` (analysis_engine.py lines 926-958 plus
the returned record, which the file's text displaces to lines 30-41; the same
computation appears inline in `app.py` lines 421-467).  Drops null unit
prices, skips the product when none remain, otherwise computes mean/min/max,
the price gap, the zero-guarded gap percentage, and the market position. -/
def perform_competitiveness_analysis (our_product : Row) (our_unit_price : ℚ)
    (competitors : List Row) (comparison_type : CompTier) : Option CompEntry :=
  let competitor_unit_prices := competitors.filterMap Row.unitPrice
  if competitor_unit_prices.isEmpty then none
  else
    let competitor_avg := competitor_unit_prices.sum / competitor_unit_prices.length
    let competitor_min := (list_min competitor_unit_prices).getD 0
    let competitor_max := (list_max competitor_unit_prices).getD 0
    let price_gap := our_unit_price - competitor_avg
    let price_gap_percent := if 0 < competitor_avg then price_gap / competitor_avg * 100 else 0
    let pos := determine_market_position our_unit_price competitor_min competitor_avg
      competitor_max
    some
      { productName := our_product.productName.getD ""
        ourVolume := (our_product.volume.getD 0)
        ourCount := (our_product.packCount.getD 0)
        ourUnitPrice := our_unit_price
        competitorAvg := competitor_avg
        competitorMin := competitor_min
        competitorMax := competitor_max
        priceGap := price_gap
        priceGapPercent := price_gap_percent
        position := pos.1
        positionColor := pos.2
        competitorCount := competitors.length
        comparisonTier := comparison_type
        mainCompetitors := (competitor_details competitors).take main_competitors_count }

/-- `_analyze_single_product_competitiveness` applied across the rows of one
platform (analysis_engine.py lines 835-876): products missing volume, pack
count or unit price are skipped, as are products whose tier search finds no
competitors or whose cohort has no non-null price. -/
def analyze_platform_rows (our_platform_data competitor_platform_data : List Row) :
    List CompEntry :=
  our_platform_data.filterMap fun our_product =>
    match our_product.volume, our_product.packCount, our_product.unitPrice with
    | some v, some c, some p =>
      match find_best_competitors v c competitor_platform_data with
      | some (selected, ctype) => perform_competitiveness_analysis our_product p selected ctype
      | none => none
    | _, _, _ => none

/-- The column names `_detailed_competitiveness_analysis` requires before
doing any work. -/
def competitiveness_required_cols : List String :=
  ["최저가 단위가격(100ml당)", "플랫폼", "용량(ml)", "개수"]

/-- `_detailed_competitiveness_analysis` / `_analyze_platform_competitiveness`
(analysis_engine.py lines 786-842): per platform, both sides must be
non-empty and the platform is reported only when at least one product
produced an entry. -/
def detailed_competitiveness_of (t : Table) (our_products competitor_products : List Row) :
    List (String × List CompEntry) :=
  (first_uniques (t.rows.filterMap Row.platform)).filterMap fun pl =>
    let our_platform_data := our_products.filter fun r => decide (r.platform = some pl)
    let competitor_platform_data :=
      competitor_products.filter fun r => decide (r.platform = some pl)
    if our_platform_data.isEmpty || competitor_platform_data.isEmpty then none
    else
      let entries := analyze_platform_rows our_platform_data competitor_platform_data
      if entries.isEmpty then none else some (pl, entries)

/-- Market-reaction classification tags (`_calculate_market_reaction` returns
display strings; `countOnly` is the bare `f"{reviews}개"` fallback and
`noReviews` is 리뷰 없음). -/
inductive Reaction where
  | high
  | aboveAverage
  | normal
  | countOnly
  | noReviews
deriving DecidableEq

/-- `_calculate_market_reaction` (analysis_engine.py lines 709-728; inline in
`app.py` lines 305-314).  The ratio branch runs only when both the market
average and the product's own review count are positive. -/
def calculate_market_reaction (reviews market_avg_reviews : ℚ) : Reaction :=
  if 0 < market_avg_reviews ∧ 0 < reviews then
    let market_ratio := reviews / market_avg_reviews
    if 2 ≤ market_ratio then .high
    else if 1 ≤ market_ratio then .aboveAverage
    else .normal
  else if 0 < reviews then .countOnly else .noReviews

/-- Customer-satisfaction classification tags. -/
inductive Satisfaction where
  | excellent
  | good
  | needsWork
  | noRating
deriving DecidableEq

/-- `_calculate_customer_satisfaction` (analysis_engine.py lines 730-750),
with the configured thresholds 4.5 / 4.0. -/
def calculate_customer_satisfaction (rating : ℚ) : Satisfaction :=
  if 0 < rating then
    if (4.5 : ℚ) ≤ rating then .excellent
    else if (4 : ℚ) ≤ rating then .good
    else .needsWork
  else .noRating

/-- The competitor market averages of `_calculate_market_averages`. -/
structure MarketAverages where
  reviews : ℚ
  rating : ℚ
deriving DecidableEq

/-- `_calculate_market_averages` (analysis_engine.py lines 519-548; inline in
`app.py` lines 219-230): both a review and a rating column must exist, and
each average is taken only over the non-null strictly positive values,
defaulting to 0. -/
def calculate_market_averages (review_col rating_col : Option String)
    (competitor_products : List Row) : MarketAverages :=
  if review_col.isSome && rating_col.isSome then
    let market_reviews :=
      (competitor_products.filterMap Row.reviewCnt).filter fun x => decide (0 < x)
    let market_ratings :=
      (competitor_products.filterMap Row.rating).filter fun x => decide (0 < x)
    { reviews := if market_reviews.isEmpty then 0
        else market_reviews.sum / market_reviews.length
      rating := if market_ratings.isEmpty then 0
        else market_ratings.sum / market_ratings.length }
  else { reviews := 0, rating := 0 }

/-- The `product_key` of a performance entry: the source builds the string
`f"{제품명}_{용량}_{개수}"`; since the volume/count components are numeric
renderings without underscores, that string determines and is determined by
this triple. -/
structure PKey where
  pname : String
  volume : ℚ
  pcount : ℚ
deriving DecidableEq

/-- The full group key of one unique product (all four identity columns,
which the performance scorer reads unconditionally). -/
structure UKey where
  brand : String
  pname : String
  volume : ℚ
  pcount : ℚ
deriving DecidableEq

/-- The `product_key` triple of a unique product. -/
def UKey.pkey (k : UKey) : PKey := ⟨k.pname, k.volume, k.pcount⟩

/-- The raw our-brand rows matching one unique product's full group key
(analysis_engine.py lines 597-602): four NaN-rejecting equality filters. -/
def matching_rows (our_products : List Row) (k : UKey) : List Row :=
  our_products.filter fun r =>
    decide (r.brand = some k.brand) && decide (r.productName = some k.pname) &&
    decide (r.volume = some k.volume) && decide (r.packCount = some k.pcount)

/-- One performance-ranking entry. -/
structure PerfEntry where
  key : PKey
  reviews : ℚ
  rating : ℚ
  score : ℚ
deriving DecidableEq

/-- The aggregation step of the performance scorer: maximum review count and
maximum rating over the matching rows (`Series.max()` skips NaN; an all-NaN
maximum is replaced by 0), and the score `reviews × rating` gated on a
positive rating. -/
def perf_entry_of (our_products : List Row) (k : UKey) : PerfEntry :=
  let m := matching_rows our_products k
  let product_reviews := (list_max (m.filterMap Row.reviewCnt)).getD 0
  let product_rating := (list_max (m.filterMap Row.rating)).getD 0
  { key := k.pkey
    reviews := product_reviews
    rating := product_rating
    score := if 0 < product_rating then product_reviews * product_rating else 0 }

/-- Descending order on performance scores; Python's stable
`sort(key=..., reverse=True)` is insertion sort under this relation. -/
def score_ge (a b : PerfEntry) : Prop := b.score ≤ a.score

instance : DecidableRel score_ge := fun a b => inferInstanceAs (Decidable (b.score ≤ a.score))

instance : IsTotal PerfEntry score_ge :=
  ⟨fun a b => (le_total b.score a.score).elim Or.inl Or.inr⟩

instance : IsTrans PerfEntry score_ge :=
  ⟨fun _ _ _ h1 h2 => le_trans h2 h1⟩

/-- `_calculate_performance_rankings` (analysis_engine.py lines 578-625):
empty unless both a review and a rating column were found; one entry per
unique product whose matching-row set is non-empty; sorted by score
descending. -/
def calculate_performance_rankings (review_col rating_col : Option String)
    (our_products : List Row) (unique_our_products : List UKey) : List PerfEntry :=
  if review_col.isNone || rating_col.isNone then []
  else
    List.insertionSort score_ge
      (unique_our_products.filterMap fun k =>
        if (matching_rows our_products k).isEmpty then none
        else some (perf_entry_of our_products k))

/-- The performance list as built inline by `_analyze_category` in `app.py`
(lines 233-268): an entry is appended for every unique product, with
reviews/rating zero when there is no matching row or no review/rating
column. -/
def app_performance_list (review_col rating_col : Option String)
    (our_products : List Row) (unique_our_products : List UKey) : List PerfEntry :=
  List.insertionSort score_ge
    (unique_our_products.map fun k =>
      if (matching_rows our_products k).isEmpty || review_col.isNone || rating_col.isNone then
        { key := k.pkey, reviews := 0, rating := 0, score := 0 }
      else perf_entry_of our_products k)

/-- In-brand rank labels (`_calculate_brand_ranking` returns display strings
🏆 r위/n개, 🥉 r위/n개, 📊 r위/n개 or 단일 제품). -/
inductive RankLabel where
  | champion (total : Nat)
  | podium (rank total : Nat)
  | mid (rank total : Nat)
  | single
deriving DecidableEq

/-- The label the source picks for a found 1-based rank. -/
def rank_label (rank total : Nat) : RankLabel :=
  if rank = 1 then .champion total
  else if rank ≤ 3 then .podium rank total
  else .mid rank total

/-- The 0-based index of the first entry with the given product key
(Python's `next((i for i, p in enumerate(...) if ...), None)`). -/
def first_key_index (pk : PKey) : List PerfEntry → Option Nat
  | [] => none
  | e :: rest =>
    if e.key = pk then some 0 else (first_key_index pk rest).map (· + 1)

/-- `_calculate_brand_ranking` (analysis_engine.py lines 752-772; inline in
`app.py` lines 331-343): a numeric label only when the key is found and the
ranking has more than one entry, otherwise 단일 제품. -/
def calculate_brand_ranking (pk : PKey) (performance_rankings : List PerfEntry) : RankLabel :=
  match first_key_index pk performance_rankings with
  | some i =>
    if 1 < performance_rankings.length then rank_label (i + 1) performance_rankings.length
    else .single
  | none => .single

/-- Round-half-to-even on an exact rational, the behaviour of Python's
built-in `round` (on the exact value; the binary-float argument of the source
agrees with the exact value at all inputs considered here). -/
def round_half_even (x : ℚ) : ℤ :=
  if x - ⌊x⌋ < 1/2 then ⌊x⌋
  else if 1/2 < x - ⌊x⌋ then ⌊x⌋ + 1
  else if Even ⌊x⌋ then ⌊x⌋ else ⌊x⌋ + 1

/-- Python's `round(x, 1)`. -/
def python_round1 (x : ℚ) : ℚ := (round_half_even (x * 10) : ℚ) / 10

/-- `Series.value_counts()`: occurrence counts of the distinct values, sorted
by count descending (the relative order of equal counts is not specified by
the source; the model fixes a stable order). -/
def value_counts (l : List String) : List (String × Nat) :=
  List.insertionSort (fun a b => b.2 ≤ a.2) (l.dedup.map fun b => (b, l.count b))

/-- One brand's entry in the market-share map: brand, unique-product count,
and rounded percent share (제품_수 / 점유율_퍼센트). -/
structure ShareEntry where
  brand : String
  product_count : Nat
  percent : ℚ
deriving DecidableEq

/-- The market-share loop over the brand counts of the unique products
(analysis_engine.py lines 192-206; `app.py` lines 836-845): the top
`top_brands_count` brands by count, each with `count/total × 100` rounded to
one decimal, skipping everything when the total is zero. -/
def market_share_percent (brands : List String) : List ShareEntry :=
  let total_unique_products := brands.length
  ((value_counts brands).take top_brands_count).filterMap fun bc =>
    if 0 < total_unique_products then
      some ⟨bc.1, bc.2, python_round1 ((bc.2 : ℚ) / total_unique_products * 100)⟩
    else none

/-- One component of a `groupby` key: `none` when the column is not part of
the grouping, `some v` for the (non-null) cell value when it is. -/
def key_part {α : Type} (sel : Bool) (v : Option α) : Option (Option α) :=
  if sel then v.map some else some none

/-- A `groupby` key over whichever of the four identity columns are
available. -/
structure GKey where
  brand : Option String
  productName : Option String
  volume : Option ℚ
  packCount : Option ℚ
deriving DecidableEq

/-- The grouping key of one row for the selected columns, or `none` when the
row has a NaN in a selected column (pandas `groupby` drops such rows). -/
def row_group_key (available_cols : List String) (r : Row) : Option GKey :=
  (key_part (decide ("브랜드" ∈ available_cols)) r.brand).bind fun b =>
    (key_part (decide ("제품명" ∈ available_cols)) r.productName).bind fun n =>
      (key_part (decide ("용량(ml)" ∈ available_cols)) r.volume).bind fun v =>
        (key_part (decide ("개수" ∈ available_cols)) r.packCount).map fun c =>
          ⟨b, n, v, c⟩

/-- One unique product: the group key plus the aggregates of
`_calculate_unique_products` (minimum total price, minimum unit price, the
distinct platforms), each present only when its column is. -/
structure UProd where
  key : GKey
  minLowest : Option ℚ
  minUnit : Option ℚ
  platforms : Option (List String)
deriving DecidableEq

/-- `_calculate_unique_products` on at least two available identity columns
(analysis_engine.py lines 440-456; inline in `app.py` lines 183-198): one
record per distinct group key with the three optional aggregates.  (Pandas
returns the groups sorted by key; no claim depends on that order, and the
model lists groups in first-appearance order.) -/
def unique_products_of (available_cols : List String) (t : Table) : List UProd :=
  let keys := first_uniques (t.rows.filterMap (row_group_key available_cols))
  keys.map fun k =>
    let grp := t.rows.filter fun r => decide (row_group_key available_cols r = some k)
    { key := k
      minLowest := if "최저가(배송비 포함)" ∈ t.cols then
          list_min (grp.filterMap Row.lowestPrice)
        else none
      minUnit := if "최저가 단위가격(100ml당)" ∈ t.cols then
          list_min (grp.filterMap Row.unitPrice)
        else none
      platforms := if "플랫폼" ∈ t.cols then
          some (first_uniques (grp.filterMap Row.platform))
        else none }

/-- One row of the 용량별/개수별 market breakdown. -/
structure VolumeCombo where
  volume : ℚ
  pack_count : ℚ
  total_products : Nat
  our_products_in_combo : Nat
  avg_unit_price : Option ℚ
  min_unit_price : Option ℚ
  max_unit_price : Option ℚ
deriving DecidableEq

/-- `_analyze_volume_market` minus its column guards (analysis_engine.py
lines 102-145; inline in `app.py` lines 479-538): the (volume, pack count)
combinations of the NaN-free rows, sorted by frequency descending, the top
`top_volume_combinations` of them annotated with our presence count and the
combo's unit-price statistics. -/
def analyze_volume_market_rows (t : Table) (our_products : List Row) : List VolumeCombo :=
  let df_for_volume := t.rows.filter fun r => r.volume.isSome && r.packCount.isSome
  let combos := first_uniques (df_for_volume.filterMap fun r =>
    match r.volume, r.packCount with
    | some v, some c => some (v, c)
    | _, _ => none)
  let counted := combos.map fun vc =>
    (vc, (df_for_volume.filter fun r =>
      decide (r.volume = some vc.1) && decide (r.packCount = some vc.2)).length)
  let sorted := List.insertionSort (fun a b => b.2 ≤ a.2) counted
  (sorted.take top_volume_combinations).map fun vcn =>
    let combo_products := df_for_volume.filter fun r =>
      decide (r.volume = some vcn.1.1) && decide (r.packCount = some vcn.1.2)
    let priced := if "최저가 단위가격(100ml당)" ∈ t.cols then
        combo_products.filterMap Row.unitPrice
      else []
    { volume := vcn.1.1
      pack_count := vcn.1.2
      total_products := vcn.2
      our_products_in_combo := (our_products.filter fun r =>
        decide (r.volume = some vcn.1.1) && decide (r.packCount = some vcn.1.2)).length
      avg_unit_price := if priced.isEmpty then none else some (priced.sum / priced.length)
      min_unit_price := if priced.isEmpty then none else list_min priced
      max_unit_price := if priced.isEmpty then none else list_max priced }

/-- The per-product detail record of the our-product section (`app.py` lines
274-350); the `none` classification fields are the 데이터 없음 markers. -/
structure ProductInfo where
  brand : String
  product_name : String
  volume : Option ℚ
  pack_count : Option ℚ
  lowest_price : Option ℚ
  unit_price : Option ℚ
  platforms : Option (List String)
  market_reaction : Option Reaction
  satisfaction : Option Satisfaction
  brand_rank : Option RankLabel
deriving DecidableEq

/-- The full key of a unique product whose four identity columns are all part
of the grouping (the only situation in which the our-product section runs to
completion; absent components would have raised in the source). -/
def ukey_of (u : UProd) : UKey :=
  ⟨u.key.brand.getD "", u.key.productName.getD "", u.key.volume.getD 0, u.key.packCount.getD 0⟩

/-- One iteration of the our-product detail loop (`app.py` lines 270-350):
basic and price data from the unique product, review/rating-based
classifications only when a performance entry was found and both columns
exist. -/
def create_product_info (review_col rating_col : Option String) (u : UProd)
    (performance : List PerfEntry) (mavg : MarketAverages) : ProductInfo :=
  let pk := (ukey_of u).pkey
  let found := performance.find? fun p => decide (p.key = pk)
  let hasData := found.isSome && review_col.isSome && rating_col.isSome
  { brand := u.key.brand.getD ""
    product_name := u.key.productName.getD ""
    volume := u.key.volume
    pack_count := u.key.packCount
    lowest_price := u.minLowest
    unit_price := u.minUnit
    platforms := u.platforms
    market_reaction :=
      match found with
      | some p => if hasData then some (calculate_market_reaction p.reviews mavg.reviews)
          else none
      | none => none
    satisfaction :=
      match found with
      | some p => if hasData then some (calculate_customer_satisfaction p.rating) else none
      | none => none
    brand_rank :=
      if hasData then some (calculate_brand_ranking pk performance) else none }

/-- The our-product detail section of `_analyze_category` in `app.py` (lines
216-352): competitor market averages, the always-appending performance list,
then one `ProductInfo` per unique our-brand product. -/
def build_our_details (review_col rating_col : Option String)
    (our_products competitor_products : List Row) (our_unique : List UProd) :
    List ProductInfo :=
  let mavg := calculate_market_averages review_col rating_col competitor_products
  let performance :=
    app_performance_list review_col rating_col our_products (our_unique.map ukey_of)
  our_unique.map fun u => create_product_info review_col rating_col u performance mavg

/-- The `business_insights` map of one category result, restricted to the
four documented insight keys; a `none` field is an absent key.  (The `app.py`
revision additionally stores diagnostic `enhanced_market_share` /
`platform_analysis` entries computed inside the same all-catching `try`
block; no claim concerns them.) -/
structure BusinessInsights where
  our_product_details : Option (List ProductInfo) := none
  detailed_competitiveness : Option (List (String × List CompEntry)) := none
  volume_count_market : Option (List VolumeCombo) := none
  market_share : Option (List ShareEntry) := none
deriving DecidableEq

/-- One `CategoryAnalysisResult`. -/
structure CatResult where
  category_name : String
  total_products_analyzed : Nat
  total_unique_products : Nat
  our_products_count : Nat
  our_unique_products_count : Nat
  competitor_products_count : Nat
  competitor_unique_products_count : Nat
  business_insights : BusinessInsights
deriving DecidableEq

/-- The zero-filled category result (`app.py` lines 127-137, repeated at lines
151-160). -/
def empty_category_result (category_name : String) : CatResult :=
  { category_name := category_name
    total_products_analyzed := 0
    total_unique_products := 0
    our_products_count := 0
    our_unique_products_count := 0
    competitor_products_count := 0
    competitor_unique_products_count := 0
    business_insights := {} }

/-- The three identity columns the our-product detail loop reads without a
presence check (`app.py` lines 240-244 and 261). -/
def key_detail_cols : List String := ["제품명", "용량(ml)", "개수"]

/-- `_analyze_category` of `app.py` (lines 120-867).  `Except.error ()` marks
the two places where the source lets a `KeyError` escape: the our/competitor
split when the 브랜드 column is absent, and the our-product detail loop when a
unique our-brand product exists but one of `key_detail_cols` is missing.  The
volume-market and market-share sections sit in all-catching `try` blocks whose
bodies cannot fail in the model, so they are total here. -/
def analyze_category (category_name : String) (t : Table) : Except Unit CatResult :=
  if t.rows.isEmpty then .ok (empty_category_result category_name)
  else if rating_col_search rating_candidates t.cols = .earlyReturn then
    .ok (empty_category_result category_name)
  else
    let rating_col := (rating_col_search rating_candidates t.cols).toOption
    let review_col := find_first_col review_candidates t.cols
    if "브랜드" ∈ t.cols then
      let our_products := t.rows.filter fun r => decide (r.brand = some our_brand)
      let competitor_products := t.rows.filter fun r => !decide (r.brand = some our_brand)
      let available_cols := required_for_analysis.filter fun c => decide (c ∈ t.cols)
      if available_cols.length < 2 then
        .ok
          { category_name := category_name
            total_products_analyzed := t.rows.length
            total_unique_products := 0
            our_products_count := our_products.length
            our_unique_products_count := 0
            competitor_products_count := competitor_products.length
            competitor_unique_products_count := 0
            business_insights := {} }
      else
        let unique_products := unique_products_of available_cols t
        let our_unique := unique_products.filter fun u => decide (u.key.brand = some our_brand)
        let competitor_unique :=
          unique_products.filter fun u => !decide (u.key.brand = some our_brand)
        if our_unique.isEmpty || key_detail_cols.all (fun c => decide (c ∈ t.cols)) then
          .ok
            { category_name := category_name
              total_products_analyzed := t.rows.length
              total_unique_products := unique_products.length
              our_products_count := our_products.length
              our_unique_products_count := our_unique.length
              competitor_products_count := competitor_products.length
              competitor_unique_products_count := competitor_unique.length
              business_insights :=
                { our_product_details :=
                    if our_unique.isEmpty then none
                    else some (build_our_details review_col rating_col our_products
                      competitor_products our_unique)
                  detailed_competitiveness :=
                    if competitiveness_required_cols.all (fun c => decide (c ∈ t.cols)) then
                      some (detailed_competitiveness_of t our_products competitor_products)
                    else none
                  volume_count_market :=
                    if "용량(ml)" ∈ t.cols ∧ "개수" ∈ t.cols then
                      if (t.rows.filter fun r => r.volume.isSome && r.packCount.isSome).isEmpty
                      then none
                      else some (analyze_volume_market_rows t our_products)
                    else none
                  market_share :=
                    some (market_share_percent
                      (unique_products.filterMap fun u => u.key.brand)) } }
        else .error ()
    else .error ()

/-- Mask the fields of the columns a source table does not have (what pandas
`concat` does to rows of tables missing some columns of the union).  The
review/rating fields model whichever candidate column the table carries. -/
def mask_row (cols : List String) (r : Row) : Row :=
  { brand := if "브랜드" ∈ cols then r.brand else none
    productName := if "제품명" ∈ cols then r.productName else none
    volume := if "용량(ml)" ∈ cols then r.volume else none
    packCount := if "개수" ∈ cols then r.packCount else none
    lowestPrice := if "최저가(배송비 포함)" ∈ cols then r.lowestPrice else none
    unitPrice := if "최저가 단위가격(100ml당)" ∈ cols then r.unitPrice else none
    isFactory := if "공장형 여부" ∈ cols then r.isFactory else none
    reviewCnt := if review_candidates.any (fun c => decide (c ∈ cols)) then r.reviewCnt else none
    rating := if rating_candidates.any (fun c => decide (c ∈ cols)) then r.rating else none
    platform := if "플랫폼" ∈ cols then r.platform else none }

/-- `pd.concat(df_list, ignore_index=True)`: the union of the column sets and
the concatenation of the rows, with absent-column cells as NaN. -/
def combine_tables (df_list : List Table) : Table :=
  { cols := first_uniques (df_list.foldr (fun t acc => t.cols ++ acc) [])
    rows := df_list.foldr (fun t acc => t.rows.map (mask_row t.cols) ++ acc) [] }

/-- `_separate_product_types` (`app.py` lines 93-100): the handmade subset
keeps the rows whose 공장형 여부 is 0; without that column both subsets are
the full table. -/
def separate_product_types (combined_df : Table) : Table × Table :=
  if "공장형 여부" ∈ combined_df.cols then
    ({ combined_df with rows := combined_df.rows.filter fun r => decide (r.isFactory = some 0) },
      combined_df)
  else (combined_df, combined_df)

/-- The `AnalysisReport`. -/
structure Report where
  timestamp : String
  analysis_type : String
  our_brand_name : String
  handmade_category : CatResult
  all_category : CatResult
  platforms_analyzed : List String
deriving DecidableEq

/-- `analyze_business_critical_data` (`app.py` lines 86-118): `none` for the
empty input list, otherwise combine, split, run both category analyses
(propagating an escaped exception) and assemble the report triple.  The
`now` parameter is the `datetime.now()` timestamp. -/
def analyze_business_critical_data (now : String) (df_list : List Table) :
    Except Unit (Option (Report × Table × Table)) :=
  if df_list.isEmpty then .ok none
  else
    match analyze_category "수제 제품" (separate_product_types (combine_tables df_list)).1,
      analyze_category "전체 제품" (separate_product_types (combine_tables df_list)).2 with
    | .ok handmade_analysis, .ok all_analysis =>
      .ok (some
        ({ timestamp := now
           analysis_type := "수정과 시장 분석"
           our_brand_name := our_brand
           handmade_category := handmade_analysis
           all_category := all_analysis
           platforms_analyzed :=
             if "플랫폼" ∈ (combine_tables df_list).cols then
               first_uniques ((combine_tables df_list).rows.filterMap Row.platform)
             else [] },
         (separate_product_types (combine_tables df_list)).1,
         (separate_product_types (combine_tables df_list)).2))
    | .error e, _ => .error e
    | _, .error e => .error e

/-- A report with the timestamp field removed. -/
structure ReportContent where
  analysis_type : String
  our_brand_name : String
  handmade_category : CatResult
  all_category : CatResult
  platforms_analyzed : List String
deriving DecidableEq

/-- Forget the timestamp of a report. -/
def Report.content (r : Report) : ReportContent :=
  { analysis_type := r.analysis_type
    our_brand_name := r.our_brand_name
    handmade_category := r.handmade_category
    all_category := r.all_category
    platforms_analyzed := r.platforms_analyzed }

/-- Everything of a pipeline outcome except the report timestamp. -/
def strip_timestamp (res : Except Unit (Option (Report × Table × Table))) :
    Except Unit (Option (ReportContent × Table × Table)) :=
  res.map (Option.map fun rt => (rt.1.content, rt.2))

/-- The inputs on which `analyze_category` provably takes no escaping
exception: empty tables, tables without the 평점 column (the early zero
return), and tables with a 브랜드 column that either lack two identity
columns, have no our-brand unique product, or carry all three columns the
our-product detail loop reads. -/
def category_safe (t : Table) : Prop :=
  t.rows = [] ∨ "평점" ∉ t.cols ∨
    ("브랜드" ∈ t.cols ∧
      ((required_for_analysis.filter fun c => decide (c ∈ t.cols)).length < 2 ∨
        (unique_products_of (required_for_analysis.filter fun c => decide (c ∈ t.cols)) t).filter
          (fun u => decide (u.key.brand = some our_brand)) = [] ∨
        ∀ c ∈ key_detail_cols, c ∈ t.cols))

/-- Claim C1: for every our price and every cohort with
`competitor_min ≤ competitor_avg ≤ competitor_max`, the market-position
classifier assigns exactly one of the four labels, following the fixed rule
order (≤ min, then ≤ avg, then ≤ max, else highest); in particular a price
equal to both the cohort minimum and the cohort mean is 최저가 (lowest
price), never 평균 이하 (below average). -/
theorem c1_market_position_total_order (p mn avg mx : ℚ)
    (h1 : mn ≤ avg) (h2 : avg ≤ mx) :
    ((determine_market_position p mn avg mx).1 = Position.lowest ↔ p ≤ mn) ∧
    ((determine_market_position p mn avg mx).1 = Position.belowAverage ↔ mn < p ∧ p ≤ avg) ∧
    ((determine_market_position p mn avg mx).1 = Position.aboveAverage ↔ avg < p ∧ p ≤ mx) ∧
    ((determine_market_position p mn avg mx).1 = Position.highest ↔ mx < p) ∧
    (p = mn → p = avg → (determine_market_position p mn avg mx).1 = Position.lowest) := by
  unfold determine_market_position
  split_ifs with hA hB hC <;> refine ⟨?_, ?_, ?_, ?_, ?_⟩ <;> simp <;>
    first
      | linarith
      | (intro h; linarith)
      | (intro h h'; linarith)
      | (constructor <;> linarith)

/-- Witness for C1 at the boundary tie `p = min = mean`. -/
theorem c1_market_position_total_order_w :
    (determine_market_position 5 5 5 7).1 = Position.lowest :=
  (c1_market_position_total_order 5 5 5 7 (by norm_num) (by norm_num)).2.2.2.2 rfl rfl

/-- Claim C10: in the `app.py` revision of the category analyzer, every
non-empty table whose column set lacks the exact name 평점 gets the all-zero
result back, whatever else it contains — the misplaced `return` inside the
rating-column loop fires on the first candidate, so the alternative names
(평균평점 / rating / 별점) are never consulted. -/
theorem c10_rating_loop_early_return (category_name : String) (t : Table)
    (hrows : t.rows ≠ []) (hcol : "평점" ∉ t.cols) :
    analyze_category category_name t = .ok (empty_category_result category_name) := by
  have h1 : t.rows.isEmpty = false := by
    simpa [List.isEmpty_iff] using hrows
  have h2 : rating_col_search rating_candidates t.cols = .earlyReturn := by
    simp [rating_col_search, rating_candidates, hcol]
  simp [analyze_category, h1, h2]

/-- A non-empty table carrying the alternative rating column name `rating`
but not 평점. -/
def c10_demo_table : Table :=
  { cols := ["브랜드", "제품명", "rating"]
    rows := [{ brand := some "서로", productName := some "수정과", rating := some 4 }] }

/-- Witness for C10: with data, a 브랜드 column and a `rating` column
present, the analyzer still answers the all-zero result. -/
theorem c10_rating_loop_early_return_w :
    analyze_category "전체 제품" c10_demo_table = .ok (empty_category_result "전체 제품") :=
  c10_rating_loop_early_return "전체 제품" c10_demo_table (by decide) (by decide)

/-- A non-empty table with only the 브랜드 identity column (fewer than 2 of
the 4 grouping columns) and no 평점 column. -/
def c4_failing_table : Table :=
  { cols := ["브랜드"], rows := [{ brand := some "서로" }] }

/-- Claim C4 (code bug): the spec requires the degraded-columns result to
keep the raw counts (here 1 total row, 1 our-brand row); the code instead
answers the all-zero result, because the misplaced rating-loop `return`
(claim C10) fires before the grouping-column check is reached. -/
theorem c4_degraded_columns_eval :
    analyze_category "수제 제품" c4_failing_table = .ok (empty_category_result "수제 제품") ∧
    (empty_category_result "수제 제품").total_products_analyzed = 0 ∧
    (empty_category_result "수제 제품").our_products_count = 0 ∧
    c4_failing_table.rows.length = 1 ∧
    (c4_failing_table.rows.filter fun r => decide (r.brand = some our_brand)).length = 1 := by
  refine ⟨rfl, rfl, rfl, rfl, by decide⟩

/-- Claim C2: the competitor matcher picks the first non-empty cohort in the
fixed tier order (exact volume+count, then ±20 % volume with identical count,
then identical count, then the whole platform), so a non-empty exact cohort
wins even when the similar-volume cohort is also non-empty; and tier-2
membership is exactly volume within the inclusive bounds
`our_volume*0.8 … our_volume*1.2` together with an identical pack count. -/
theorem c2_tier_fallback (our_volume our_count : ℚ)
    (competitor_platform_data : List Row) :
    (exact_competitors our_volume our_count competitor_platform_data ≠ [] →
      find_best_competitors our_volume our_count competitor_platform_data =
        some (exact_competitors our_volume our_count competitor_platform_data,
          .exactTier)) ∧
    (exact_competitors our_volume our_count competitor_platform_data = [] →
      similar_volume_competitors our_volume our_count competitor_platform_data ≠ [] →
      find_best_competitors our_volume our_count competitor_platform_data =
        some (similar_volume_competitors our_volume our_count competitor_platform_data,
          .similarVolume (our_volume - our_volume * volume_similarity_range)
            (our_volume + our_volume * volume_similarity_range))) ∧
    (exact_competitors our_volume our_count competitor_platform_data = [] →
      similar_volume_competitors our_volume our_count competitor_platform_data = [] →
      same_count_competitors our_count competitor_platform_data ≠ [] →
      find_best_competitors our_volume our_count competitor_platform_data =
        some (same_count_competitors our_count competitor_platform_data, .sameCount)) ∧
    (exact_competitors our_volume our_count competitor_platform_data = [] →
      similar_volume_competitors our_volume our_count competitor_platform_data = [] →
      same_count_competitors our_count competitor_platform_data = [] →
      competitor_platform_data ≠ [] →
      find_best_competitors our_volume our_count competitor_platform_data =
        some (competitor_platform_data, .entireMarket)) ∧
    (competitor_platform_data = [] →
      find_best_competitors our_volume our_count competitor_platform_data = none) ∧
    (∀ r ∈ competitor_platform_data,
      r ∈ similar_volume_competitors our_volume our_count competitor_platform_data ↔
        ((∃ w, r.volume = some w ∧
            our_volume * (8/10) ≤ w ∧ w ≤ our_volume * (12/10)) ∧
          r.packCount = some our_count)) := by
  refine ⟨?_, ?_, ?_, ?_, ?_, ?_⟩
  · intro h
    simp [find_best_competitors, List.isEmpty_iff, h]
  · intro h1 h2
    simp [find_best_competitors, List.isEmpty_iff, h1, h2]
  · intro h1 h2 h3
    simp [find_best_competitors, List.isEmpty_iff, h1, h2, h3]
  · intro h1 h2 h3 h4
    simp [find_best_competitors, List.isEmpty_iff, h1, h2, h3, h4]
  · intro h
    subst h
    simp [find_best_competitors, exact_competitors, similar_volume_competitors,
      same_count_competitors]
  · intro r hr
    simp only [similar_volume_competitors, List.mem_filter, hr, true_and]
    constructor
    · intro h
      rcases hv : r.volume with _ | w
      · rw [hv] at h; simp at h
      · rw [hv] at h
        simp only [Bool.and_eq_true, decide_eq_true_eq] at h
        refine ⟨⟨w, rfl, ?_, ?_⟩, h.2⟩
        · have := h.1.1
          unfold volume_similarity_range at this
          linarith
        · have := h.1.2
          unfold volume_similarity_range at this
          linarith
    · rintro ⟨⟨w, hw, hlo, hhi⟩, hc⟩
      rw [hw]
      simp only [Bool.and_eq_true, decide_eq_true_eq]
      refine ⟨⟨?_, ?_⟩, hc⟩
      · unfold volume_similarity_range
        linarith
      · unfold volume_similarity_range
        linarith

/-- A tier-1 competitor at exactly our volume and count. -/
def c2_exact_row : Row :=
  { brand := some "경쟁A", volume := some 500, packCount := some 1, unitPrice := some 1200 }

/-- A tier-2 competitor inside the ±20 % volume band. -/
def c2_similar_row : Row :=
  { brand := some "경쟁B", volume := some 450, packCount := some 1, unitPrice := some 1100 }

/-- A platform cohort in which both the exact and the similar-volume tiers
are non-empty. -/
def c2_demo_rows : List Row := [c2_exact_row, c2_similar_row]

/-- Witness for C2: with both tier-1 and tier-2 cohorts non-empty, the
matcher reports the exact-match cohort and tier. -/
theorem c2_tier_fallback_w :
    exact_competitors 500 1 c2_demo_rows ≠ [] ∧
    similar_volume_competitors 500 1 c2_demo_rows ≠ [] ∧
    find_best_competitors 500 1 c2_demo_rows =
      some (exact_competitors 500 1 c2_demo_rows, .exactTier) := by
  have h1 : exact_competitors 500 1 c2_demo_rows ≠ [] := by
    simp [exact_competitors, c2_demo_rows, c2_exact_row, c2_similar_row, List.filter]
  have h2 : similar_volume_competitors 500 1 c2_demo_rows ≠ [] := by
    simp only [similar_volume_competitors, volume_similarity_range, c2_demo_rows,
      c2_exact_row, c2_similar_row, List.filter]
    norm_num
    simp
  exact ⟨h1, h2, (c2_tier_fallback 500 1 c2_demo_rows).1 h1⟩

theorem list_min_eq_none {l : List ℚ} : list_min l = none ↔ l = [] := by
  cases l with
  | nil => simp [list_min]
  | cons x xs =>
    rw [list_min]
    rcases list_min xs with _ | m <;> simp

theorem list_min_mem : ∀ {l : List ℚ} {m : ℚ}, list_min l = some m → m ∈ l := by
  intro l
  induction l with
  | nil => intro m h; simp [list_min] at h
  | cons x xs ih =>
    intro m h
    rw [list_min] at h
    rcases hxs : list_min xs with _ | m' <;> rw [hxs] at h <;> simp at h
    · simp [h]
    · rcases min_choice x m' with hc | hc
      · rw [← h, hc]; simp
      · rw [← h, hc]; simp [ih hxs]

theorem list_min_le : ∀ {l : List ℚ} {m : ℚ}, list_min l = some m → ∀ q ∈ l, m ≤ q := by
  intro l
  induction l with
  | nil => intro m _ q hq; simp at hq
  | cons x xs ih =>
    intro m h q hq
    rw [list_min] at h
    rcases hxs : list_min xs with _ | m' <;> rw [hxs] at h <;> simp at h
    · have hnil : xs = [] := list_min_eq_none.mp hxs
      subst hnil
      simp at hq
      simp [← h, hq]
    · rcases List.mem_cons.mp hq with hq | hq
      · rw [← h, hq]; exact min_le_left _ _
      · calc m ≤ m' := by rw [← h]; exact min_le_right _ _
          _ ≤ q := ih hxs q hq

theorem list_min_of_ne_nil {l : List ℚ} (h : l ≠ []) : ∃ m, list_min l = some m := by
  rcases hm : list_min l with _ | m
  · exact absurd (list_min_eq_none.mp hm) h
  · exact ⟨m, rfl⟩

theorem list_max_eq_none {l : List ℚ} : list_max l = none ↔ l = [] := by
  cases l with
  | nil => simp [list_max]
  | cons x xs =>
    rw [list_max]
    rcases list_max xs with _ | m <;> simp

theorem list_max_mem : ∀ {l : List ℚ} {m : ℚ}, list_max l = some m → m ∈ l := by
  intro l
  induction l with
  | nil => intro m h; simp [list_max] at h
  | cons x xs ih =>
    intro m h
    rw [list_max] at h
    rcases hxs : list_max xs with _ | m' <;> rw [hxs] at h <;> simp at h
    · simp [h]
    · rcases max_choice x m' with hc | hc
      · rw [← h, hc]; simp
      · rw [← h, hc]; simp [ih hxs]

theorem list_max_ge : ∀ {l : List ℚ} {m : ℚ}, list_max l = some m → ∀ q ∈ l, q ≤ m := by
  intro l
  induction l with
  | nil => intro m _ q hq; simp at hq
  | cons x xs ih =>
    intro m h q hq
    rw [list_max] at h
    rcases hxs : list_max xs with _ | m' <;> rw [hxs] at h <;> simp at h
    · have hnil : xs = [] := list_max_eq_none.mp hxs
      subst hnil
      simp at hq
      simp [← h, hq]
    · rcases List.mem_cons.mp hq with hq | hq
      · rw [← h, hq]; exact le_max_left _ _
      · calc q ≤ m' := ih hxs q hq
          _ ≤ m := by rw [← h]; exact le_max_right _ _

theorem list_max_of_ne_nil {l : List ℚ} (h : l ≠ []) : ∃ m, list_max l = some m := by
  rcases hm : list_max l with _ | m
  · exact absurd (list_max_eq_none.mp hm) h
  · exact ⟨m, rfl⟩

/-- Claim C5 (amended): the reported metrics come from the cohort's non-null
unit prices — the mean (`avg · n = sum`), an attained lower bound, an
attained upper bound — the price gap is our price minus the mean, the gap
percentage is `gap/mean × 100` for a positive mean and 0 for a nonpositive
one (the source guards with `competitor_avg > 0`, not `≠ 0`), and a cohort
whose unit prices are all null yields no entry. -/
theorem c5_competitiveness_metrics (our_product : Row) (our_unit_price : ℚ)
    (competitors : List Row) (ct : CompTier) :
    (competitors.filterMap Row.unitPrice = [] →
      perform_competitiveness_analysis our_product our_unit_price competitors ct = none) ∧
    (competitors.filterMap Row.unitPrice ≠ [] →
      ∃ e, perform_competitiveness_analysis our_product our_unit_price competitors ct =
          some e ∧
        e.competitorAvg * (competitors.filterMap Row.unitPrice).length =
          (competitors.filterMap Row.unitPrice).sum ∧
        e.competitorMin ∈ competitors.filterMap Row.unitPrice ∧
        (∀ q ∈ competitors.filterMap Row.unitPrice, e.competitorMin ≤ q) ∧
        e.competitorMax ∈ competitors.filterMap Row.unitPrice ∧
        (∀ q ∈ competitors.filterMap Row.unitPrice, q ≤ e.competitorMax) ∧
        e.priceGap = our_unit_price - e.competitorAvg ∧
        (0 < e.competitorAvg → e.priceGapPercent = e.priceGap / e.competitorAvg * 100) ∧
        (e.competitorAvg ≤ 0 → e.priceGapPercent = 0) ∧
        e.ourUnitPrice = our_unit_price ∧
        e.comparisonTier = ct) := by
  constructor
  · intro h
    simp [perform_competitiveness_analysis, h]
  · intro h
    have hne : (competitors.filterMap Row.unitPrice).isEmpty = false := by
      simpa [List.isEmpty_iff] using h
    obtain ⟨mn, hmn⟩ := list_min_of_ne_nil h
    obtain ⟨mx, hmx⟩ := list_max_of_ne_nil h
    have hlen : ((competitors.filterMap Row.unitPrice).length : ℚ) ≠ 0 := by
      have h0 : (competitors.filterMap Row.unitPrice).length ≠ 0 := by
        simpa [List.length_eq_zero] using h
      exact_mod_cast Nat.cast_ne_zero.mpr h0
    rcases hE : perform_competitiveness_analysis our_product our_unit_price competitors ct
      with _ | e
    · exfalso
      revert hE
      simp [perform_competitiveness_analysis, hne]
    · simp only [perform_competitiveness_analysis, hne, Bool.false_eq_true, if_false,
        Option.some.injEq] at hE
      subst hE
      refine ⟨_, rfl, ?_, ?_, ?_, ?_, ?_, rfl, ?_, ?_, rfl, rfl⟩
      · exact div_mul_cancel₀ _ hlen
      · simp only [hmn, Option.getD_some]
        exact list_min_mem hmn
      · simp only [hmn, Option.getD_some]
        exact list_min_le hmn
      · simp only [hmx, Option.getD_some]
        exact list_max_mem hmx
      · simp only [hmx, Option.getD_some]
        exact list_max_ge hmx
      · intro hpos
        simp only [if_pos hpos]
      · intro hnonpos
        simp only [if_neg (not_lt.mpr hnonpos)]

/-- A competitor cohort consisting of one priced row. -/
def c5_demo_competitor : Row :=
  { brand := some "경쟁A", volume := some 500, packCount := some 1, unitPrice := some 1200 }

/-- Witness for C5 on a one-competitor cohort. -/
theorem c5_competitiveness_metrics_w :
    ∃ e, perform_competitiveness_analysis { brand := some our_brand } 1000
        [c5_demo_competitor] CompTier.exactTier = some e ∧
      e.priceGap = 1000 - e.competitorAvg := by
  obtain ⟨e, h1, _, _, _, _, _, h7, _⟩ :=
    (c5_competitiveness_metrics { brand := some our_brand } 1000 [c5_demo_competitor]
      CompTier.exactTier).2 (by simp [c5_demo_competitor])
  exact ⟨e, h1, h7⟩

/-- A cohort whose single non-null unit price is negative. -/
def c5_negative_row : Row := { brand := some "경쟁A", unitPrice := some (-100) }

/-- Counterexample to C5 as stated: with cohort mean −100 (nonzero), the code
reports a gap percentage of 0, not `gap / mean × 100 = −200`, because its
guard tests `mean > 0` rather than `mean ≠ 0`. -/
theorem c5_negative_mean_cex :
    (perform_competitiveness_analysis { brand := some our_brand } 100 [c5_negative_row]
        CompTier.entireMarket).map CompEntry.competitorAvg = some (-100) ∧
    (perform_competitiveness_analysis { brand := some our_brand } 100 [c5_negative_row]
        CompTier.entireMarket).map CompEntry.priceGapPercent = some 0 ∧
    ((100 : ℚ) - (-100)) / (-100) * 100 = -200 ∧
    (0 : ℚ) ≠ -200 := by
  refine ⟨?_, ?_, by norm_num, by norm_num⟩
  · simp only [perform_competitiveness_analysis, c5_negative_row, List.filterMap_cons,
      List.filterMap_nil]
    norm_num
  · simp only [perform_competitiveness_analysis, c5_negative_row, List.filterMap_cons,
      List.filterMap_nil]
    norm_num

/-- Claim C8 (amended): with the competitor average `a` computed over the
positive non-null competitor review counts, the reaction is 🔥 high when
`r/a ≥ 2`, 📈 above average when `1 ≤ r/a < 2` and 📊 normal when `r/a < 1`
— but only when `r > 0` as well as `a > 0`; when `a` is 0 (no positive
competitor reviews, or a missing column) the fall-back uses the raw count
alone, and a zero own count reports 리뷰 없음 (no reviews) even when `a > 0`
(the source requires `reviews > 0` for the ratio branch, which the claim as
stated overlooks). -/
theorem c8_market_reaction_rules (review_col rating_col : String)
    (competitor_products : List Row) (r a : ℚ)
    (ha : a = (calculate_market_averages (some review_col) (some rating_col)
      competitor_products).reviews) :
    (0 < a → 0 < r →
      (2 ≤ r / a → calculate_market_reaction r a = .high) ∧
      (1 ≤ r / a → r / a < 2 → calculate_market_reaction r a = .aboveAverage) ∧
      (r / a < 1 → calculate_market_reaction r a = .normal)) ∧
    (0 < a → r = 0 → calculate_market_reaction r a = .noReviews) ∧
    (a = 0 → 0 < r → calculate_market_reaction r a = .countOnly) ∧
    (a = 0 → r = 0 → calculate_market_reaction r a = .noReviews) ∧
    (((competitor_products.filterMap Row.reviewCnt).filter fun x => decide (0 < x)) ≠ [] →
      a * ((competitor_products.filterMap Row.reviewCnt).filter
        fun x => decide (0 < x)).length =
        ((competitor_products.filterMap Row.reviewCnt).filter fun x => decide (0 < x)).sum) ∧
    (((competitor_products.filterMap Row.reviewCnt).filter fun x => decide (0 < x)) = [] →
      a = 0) := by
  refine ⟨?_, ?_, ?_, ?_, ?_, ?_⟩
  · intro hA hR
    refine ⟨?_, ?_, ?_⟩
    · intro h2
      simp [calculate_market_reaction, hA, hR, h2]
    · intro h1 h2
      simp [calculate_market_reaction, hA, hR, h1, not_le.mpr h2]
    · intro h1
      simp [calculate_market_reaction, hA, hR, not_le.mpr h1,
        not_le.mpr (lt_of_lt_of_le h1 one_le_two)]
  · intro hA hR
    subst hR
    simp [calculate_market_reaction]
  · intro hA hR
    subst hA
    simp [calculate_market_reaction, hR]
  · intro hA hR
    subst hA
    subst hR
    simp [calculate_market_reaction]
  · intro hpos
    have hne : (((competitor_products.filterMap Row.reviewCnt).filter
        fun x => decide (0 < x))).isEmpty = false := by
      simpa [List.isEmpty_iff] using hpos
    have hlen : ((((competitor_products.filterMap Row.reviewCnt).filter
        fun x => decide (0 < x))).length : ℚ) ≠ 0 := by
      have h0 : (((competitor_products.filterMap Row.reviewCnt).filter
          fun x => decide (0 < x))).length ≠ 0 := by
        simpa [List.length_eq_zero] using hpos
      exact_mod_cast Nat.cast_ne_zero.mpr h0
    rw [ha]
    simp only [calculate_market_averages, Option.isSome_some, Bool.and_self, if_true, hne,
      Bool.false_eq_true, if_false]
    exact div_mul_cancel₀ _ hlen
  · intro hempty
    rw [ha]
    simp [calculate_market_averages, hempty]

/-- Counterexample to C8 as stated: with a positive competitor average (20)
and zero own reviews the ratio is 0 < 1, so the claim requires 📊 normal, but
the code reports 리뷰 없음 (no reviews). -/
theorem c8_zero_reviews_cex :
    calculate_market_reaction 0 20 = Reaction.noReviews ∧
    Reaction.noReviews ≠ Reaction.normal := by
  constructor
  · norm_num [calculate_market_reaction]
  · decide

/-- A competitor cohort averaging 20 reviews. -/
def c8_demo_rows : List Row :=
  [{ brand := some "경쟁A", reviewCnt := some 20, rating := some 4 }]

/-- Witness for C8 at spec scenario E: 50 own reviews against a competitor
average of 20 gives ratio 2.5 and the 🔥 high reaction. -/
theorem c8_market_reaction_rules_w :
    calculate_market_reaction 50
      (calculate_market_averages (some "리뷰 개수") (some "평점") c8_demo_rows).reviews =
      Reaction.high := by
  have ha : (calculate_market_averages (some "리뷰 개수") (some "평점")
      c8_demo_rows).reviews = 20 := by
    simp [calculate_market_averages, c8_demo_rows]
  rw [ha]
  exact (((c8_market_reaction_rules "리뷰 개수" "평점" c8_demo_rows 50 20
    (by rw [ha])).1 (by norm_num) (by norm_num)).1 (by norm_num))

theorem first_key_index_of_nodup :
    ∀ (L : List PerfEntry) (i : Nat) (h : i < L.length),
      (L.map PerfEntry.key).Nodup → first_key_index (L.get ⟨i, h⟩).key L = some i := by
  intro L
  induction L with
  | nil => intro i h; simp at h
  | cons e t ih =>
    intro i h hn
    rw [List.map_cons, List.nodup_cons] at hn
    cases i with
    | zero => simp [first_key_index]
    | succ j =>
      have hj : j < t.length := Nat.lt_of_succ_lt_succ h
      have hget : (e :: t).get ⟨j + 1, h⟩ = t.get ⟨j, hj⟩ := rfl
      rw [hget, first_key_index]
      have hne : ¬ e.key = (t.get ⟨j, hj⟩).key := by
        intro hEq
        exact hn.1 (hEq ▸ List.mem_map_of_mem PerfEntry.key (t.get_mem _ _))
      rw [if_neg hne, ih j hj hn.2]
      rfl

/-- Claim C7: the performance scorer aggregates each unique product's
matching raw rows by maximum review count and maximum rating (an absent
aggregate counting as 0), scores it `reviews × rating` when the rating is
positive and 0 otherwise, returns the entries sorted by score descending
(a permutation of the per-product entries), ranks a product by its 1-based
position in that order, and a brand whose ranking has exactly one product
always gets 단일 제품 (single product) instead of a numeric rank. -/
theorem c7_performance_rankings (review_col rating_col : String)
    (our_products : List Row) (unique_our_products : List UKey) :
    List.Sorted score_ge (calculate_performance_rankings (some review_col) (some rating_col)
      our_products unique_our_products) ∧
    (calculate_performance_rankings (some review_col) (some rating_col) our_products
        unique_our_products).Perm
      (unique_our_products.filterMap fun k =>
        if (matching_rows our_products k).isEmpty then none
        else some (perf_entry_of our_products k)) ∧
    (∀ e ∈ calculate_performance_rankings (some review_col) (some rating_col) our_products
        unique_our_products,
      ∃ k ∈ unique_our_products,
        matching_rows our_products k ≠ [] ∧
        e.key = k.pkey ∧
        e.reviews =
          (list_max ((matching_rows our_products k).filterMap Row.reviewCnt)).getD 0 ∧
        e.rating = (list_max ((matching_rows our_products k).filterMap Row.rating)).getD 0 ∧
        e.score = if 0 < e.rating then e.reviews * e.rating else 0) ∧
    (((calculate_performance_rankings (some review_col) (some rating_col) our_products
          unique_our_products).map PerfEntry.key).Nodup →
      1 < (calculate_performance_rankings (some review_col) (some rating_col) our_products
        unique_our_products).length →
      ∀ (i : Nat) (h : i < (calculate_performance_rankings (some review_col) (some rating_col)
          our_products unique_our_products).length),
        calculate_brand_ranking
          ((calculate_performance_rankings (some review_col) (some rating_col) our_products
            unique_our_products).get ⟨i, h⟩).key
          (calculate_performance_rankings (some review_col) (some rating_col) our_products
            unique_our_products) =
          rank_label (i + 1)
            (calculate_performance_rankings (some review_col) (some rating_col) our_products
              unique_our_products).length) ∧
    ((calculate_performance_rankings (some review_col) (some rating_col) our_products
        unique_our_products).length = 1 →
      ∀ pk, calculate_brand_ranking pk (calculate_performance_rankings (some review_col)
        (some rating_col) our_products unique_our_products) = RankLabel.single) := by
  have hL : calculate_performance_rankings (some review_col) (some rating_col) our_products
      unique_our_products =
      List.insertionSort score_ge
        (unique_our_products.filterMap fun k =>
          if (matching_rows our_products k).isEmpty then none
          else some (perf_entry_of our_products k)) := by
    simp [calculate_performance_rankings]
  refine ⟨?_, ?_, ?_, ?_, ?_⟩
  · rw [hL]
    exact List.sorted_insertionSort score_ge _
  · rw [hL]
    exact List.perm_insertionSort score_ge _
  · intro e he
    rw [hL, List.mem_insertionSort] at he
    rw [List.mem_filterMap] at he
    obtain ⟨k, hk, hke⟩ := he
    by_cases hm : (matching_rows our_products k).isEmpty
    · rw [if_pos hm] at hke
      exact absurd hke (by simp)
    · rw [if_neg hm] at hke
      have hmm : matching_rows our_products k ≠ [] := by
        simpa [List.isEmpty_iff] using hm
      obtain rfl : perf_entry_of our_products k = e := by simpa using hke
      exact ⟨k, hk, hmm, rfl, rfl, rfl, rfl⟩
  · intro hnd hlen i h
    rw [calculate_brand_ranking, first_key_index_of_nodup _ i h hnd]
    exact if_pos hlen
  · intro hlen pk
    rw [calculate_brand_ranking]
    rcases hidx : first_key_index pk (calculate_performance_rankings (some review_col)
        (some rating_col) our_products unique_our_products) with _ | i
    · rfl
    · rw [hlen]
      norm_num

/-- A single our-brand listing with reviews and a rating. -/
def c7_demo_row : Row :=
  { brand := some our_brand, productName := some "수정과", volume := some 500,
    packCount := some 1, reviewCnt := some 50, rating := some 4.6 }

/-- The unique product of that listing. -/
def c7_demo_key : UKey := ⟨our_brand, "수정과", 500, 1⟩

/-- Witness for C7: a one-product brand reports 단일 제품 (single product)
instead of a numeric rank. -/
theorem c7_performance_rankings_w :
    calculate_brand_ranking c7_demo_key.pkey
      (calculate_performance_rankings (some "리뷰 개수") (some "평점") [c7_demo_row]
        [c7_demo_key]) = RankLabel.single := by
  have hlen : (calculate_performance_rankings (some "리뷰 개수") (some "평점") [c7_demo_row]
      [c7_demo_key]).length = 1 := by
    simp [calculate_performance_rankings, matching_rows, c7_demo_row, c7_demo_key,
      List.filter, List.insertionSort]
  exact (c7_performance_rankings "리뷰 개수" "평점" [c7_demo_row] [c7_demo_key]).2.2.2.2
    hlen c7_demo_key.pkey

theorem sum_map_ite_count (a : String) :
    ∀ L : List String, (L.map fun b => if b = a then (1 : ℕ) else 0).sum = L.count a := by
  intro L
  induction L with
  | nil => simp
  | cons c t ih =>
    rw [List.map_cons, List.sum_cons, ih, List.count_cons]
    by_cases hc : c = a
    · subst hc
      simp
      omega
    · have hc1 : (a == c) = false := by
        simp only [beq_eq_false_iff_ne, ne_eq]
        exact fun h => hc h.symm
      have hc2 : (c == a) = false := by
        simp only [beq_eq_false_iff_ne, ne_eq]
        exact hc
      simp [hc, hc1, hc2]

theorem sum_map_count_dedup :
    ∀ l : List String, (l.dedup.map fun b => l.count b).sum = l.length := by
  intro l
  induction l with
  | nil => simp
  | cons a t ih =>
    have hsplit : ∀ L : List String,
        (L.map fun b => (a :: t).count b).sum =
          (L.map fun b => t.count b).sum +
            (L.map fun b => if b = a then (1 : ℕ) else 0).sum := by
      intro L
      induction L with
      | nil => simp
      | cons c M ihM =>
        rw [List.map_cons, List.sum_cons, List.map_cons, List.sum_cons, List.map_cons,
          List.sum_cons, ihM, List.count_cons]
        by_cases hc : c = a
        · subst hc
          simp
          omega
        · have hc1 : (c == a) = false := by
            simp only [beq_eq_false_iff_ne, ne_eq]
            exact hc
          have hc2 : (a == c) = false := by
            simp only [beq_eq_false_iff_ne, ne_eq]
            exact fun h => hc h.symm
          simp [hc, hc1, hc2]
          omega
    by_cases ha : a ∈ t
    · rw [List.dedup_cons_of_mem ha, hsplit, ih, sum_map_ite_count, List.count_dedup]
      simp [ha]
    · rw [List.dedup_cons_of_not_mem ha, List.map_cons, List.sum_cons, hsplit, ih,
        sum_map_ite_count, List.count_dedup, List.count_cons]
      rw [List.count_eq_zero_of_not_mem ha]
      simp [ha]
      omega

theorem sum_take_le_of_nonneg {l : List ℚ} (h : ∀ x ∈ l, 0 ≤ x) (n : Nat) :
    (l.take n).sum ≤ l.sum := by
  conv_rhs => rw [← List.take_append_drop n l]
  rw [List.sum_append]
  have h0 : 0 ≤ (l.drop n).sum :=
    List.sum_nonneg fun x hx => h x (List.drop_subset n l hx)
  linarith

theorem sum_map_q_mul {α : Type} (f : α → ℚ) (k : ℚ) :
    ∀ l : List α, (l.map fun x => f x * k).sum = (l.map f).sum * k := by
  intro l
  induction l with
  | nil => simp
  | cons a t ih => simp [ih, add_mul]

theorem sum_map_natcast {α : Type} (g : α → ℕ) :
    ∀ l : List α, (l.map fun x => (g x : ℚ)).sum = ((l.map g).sum : ℚ) := by
  intro l
  induction l with
  | nil => simp
  | cons a t ih => simp [ih]

theorem sum_map_add_const {α : Type} (f : α → ℚ) (k : ℚ) :
    ∀ l : List α, (l.map fun x => f x + k).sum = (l.map f).sum + l.length * k := by
  intro l
  induction l with
  | nil => simp
  | cons a t ih =>
    rw [List.map_cons, List.sum_cons, List.map_cons, List.sum_cons, ih, List.length_cons]
    push_cast
    ring

theorem round_half_even_le (x : ℚ) : (round_half_even x : ℚ) ≤ x + 1/2 := by
  have h1 : (⌊x⌋ : ℚ) ≤ x := Int.floor_le x
  unfold round_half_even
  split_ifs with hA hB hC <;> push_cast <;> linarith

theorem python_round1_le (x : ℚ) : python_round1 x ≤ x + 1/20 := by
  unfold python_round1
  have h := round_half_even_le (x * 10)
  have h10 : (0 : ℚ) < 10 := by norm_num
  calc (round_half_even (x * 10) : ℚ) / 10 ≤ (x * 10 + 1/2) / 10 :=
        (div_le_div_right h10).mpr h
    _ = x + 1/20 := by ring

theorem filtermap_some_eq_map {α β : Type} (f : α → β) :
    ∀ L : List α, (L.filterMap fun x => some (f x)) = L.map f := by
  intro L
  induction L with
  | nil => rfl
  | cons a M ih => simp [List.filterMap_cons, ih]

/-- Claim C6 (amended): the unrounded percent shares of the reported (top-10)
brands sum to at most 100, and to exactly 100 when there are at most 10
distinct brands; the reported values themselves are those shares rounded to
one decimal, so their sum can exceed 100 — by at most 1/20 per reported
brand — and need not equal 100 even with fewer than 10 brands. -/
theorem c6_market_share_sums (brands : List String) (h : brands ≠ []) :
    (((value_counts brands).take top_brands_count).map
        fun bc => (bc.2 : ℚ) / brands.length * 100).sum ≤ 100 ∧
    (brands.dedup.length ≤ top_brands_count →
      (((value_counts brands).take top_brands_count).map
          fun bc => (bc.2 : ℚ) / brands.length * 100).sum = 100) ∧
    ((market_share_percent brands).map ShareEntry.percent).sum ≤
      100 + (market_share_percent brands).length * (1/20 : ℚ) := by
  have hlen0 : brands.length ≠ 0 := by simpa [List.length_eq_zero] using h
  have hpos : 0 < brands.length := Nat.pos_of_ne_zero hlen0
  have hlenQ : (brands.length : ℚ) ≠ 0 := Nat.cast_ne_zero.mpr hlen0
  have hperm : (value_counts brands).Perm (brands.dedup.map fun b => (b, brands.count b)) :=
    List.perm_insertionSort _ _
  have hfull : ((value_counts brands).map
      fun bc => (bc.2 : ℚ) / brands.length * 100).sum = 100 := by
    rw [(hperm.map fun bc => (bc.2 : ℚ) / brands.length * 100).sum_eq, List.map_map]
    have hfn : ((fun bc : String × Nat => (bc.2 : ℚ) / brands.length * 100) ∘
        fun b => (b, brands.count b)) =
        fun b => ((brands.count b : ℚ)) * (100 / brands.length) := by
      funext b
      simp only [Function.comp]
      ring
    rw [hfn, sum_map_q_mul, sum_map_natcast, sum_map_count_dedup]
    field_simp
  have hnn : ∀ x ∈ ((value_counts brands).map
      fun bc => (bc.2 : ℚ) / brands.length * 100), 0 ≤ x := by
    intro x hx
    rw [List.mem_map] at hx
    obtain ⟨bc, _, rfl⟩ := hx
    positivity
  have hle : (((value_counts brands).take top_brands_count).map
      fun bc => (bc.2 : ℚ) / brands.length * 100).sum ≤ 100 := by
    calc (((value_counts brands).take top_brands_count).map
          fun bc => (bc.2 : ℚ) / brands.length * 100).sum
        = (((value_counts brands).map
            fun bc => (bc.2 : ℚ) / brands.length * 100).take top_brands_count).sum := by
          rw [List.map_take]
      _ ≤ ((value_counts brands).map
            fun bc => (bc.2 : ℚ) / brands.length * 100).sum :=
          sum_take_le_of_nonneg hnn _
      _ = 100 := hfull
  refine ⟨hle, ?_, ?_⟩
  · intro hd
    have hvclen : (value_counts brands).length = brands.dedup.length := by
      rw [hperm.length_eq, List.length_map]
    rw [List.take_of_length_le (by rw [hvclen]; exact hd), hfull]
  · have hms : market_share_percent brands =
        ((value_counts brands).take top_brands_count).map
          fun bc =>
            (⟨bc.1, bc.2, python_round1 ((bc.2 : ℚ) / brands.length * 100)⟩ : ShareEntry) := by
      have hif : (fun bc : String × Nat =>
          if 0 < brands.length then
            some ((⟨bc.1, bc.2,
              python_round1 ((bc.2 : ℚ) / brands.length * 100)⟩ : ShareEntry))
          else none) =
          fun bc =>
            some ((⟨bc.1, bc.2,
              python_round1 ((bc.2 : ℚ) / brands.length * 100)⟩ : ShareEntry)) := by
        funext bc
        exact if_pos hpos
      simp only [market_share_percent, hif]
      exact filtermap_some_eq_map _ _
    rw [hms, List.map_map, List.length_map]
    have hcomp : (ShareEntry.percent ∘ fun bc : String × Nat =>
        (⟨bc.1, bc.2, python_round1 ((bc.2 : ℚ) / brands.length * 100)⟩ : ShareEntry)) =
        fun bc : String × Nat => python_round1 ((bc.2 : ℚ) / brands.length * 100) := rfl
    rw [hcomp]
    have hsum_le : ((((value_counts brands).take top_brands_count)).map
        fun bc => python_round1 ((bc.2 : ℚ) / brands.length * 100)).sum ≤
        ((((value_counts brands).take top_brands_count)).map
          fun bc => (bc.2 : ℚ) / brands.length * 100 + 1/20).sum :=
      List.sum_le_sum fun bc _ => python_round1_le _
    have hsplit := sum_map_add_const
      (fun bc : String × Nat => (bc.2 : ℚ) / brands.length * 100) (1/20)
      ((value_counts brands).take top_brands_count)
    calc ((((value_counts brands).take top_brands_count)).map
          fun bc => python_round1 ((bc.2 : ℚ) / brands.length * 100)).sum
        ≤ ((((value_counts brands).take top_brands_count)).map
            fun bc => (bc.2 : ℚ) / brands.length * 100 + 1/20).sum := hsum_le
      _ = (((value_counts brands).take top_brands_count).map
            fun bc => (bc.2 : ℚ) / brands.length * 100).sum +
            ((value_counts brands).take top_brands_count).length * (1/20 : ℚ) := hsplit
      _ ≤ 100 + ((value_counts brands).take top_brands_count).length * (1/20 : ℚ) := by
          linarith

/-- Six distinct brands with one unique product each. -/
def c6_demo_brands : List String := ["가", "나", "다", "라", "마", "바"]

/-- Counterexample to C6 as stated: with 6 distinct brands (fewer than 10)
each share is 100/6 ≈ 16.667, reported as 16.7 after rounding, so the
reported shares sum to 100.2 — above 100.0 by far more than floating-point
tolerance, and not equal to 100.0. -/
theorem c6_rounded_share_cex :
    ((market_share_percent c6_demo_brands).map ShareEntry.percent).sum = 501/5 ∧
    ¬ ((market_share_percent c6_demo_brands).map ShareEntry.percent).sum ≤ 100 ∧
    c6_demo_brands.dedup.length < 10 := by
  have hval : python_round1 ((6 : ℚ)⁻¹ * 100) = 167/10 := by
    unfold python_round1 round_half_even
    have hfl : ⌊(6 : ℚ)⁻¹ * 100 * 10⌋ = 166 := by norm_num
    rw [hfl]
    norm_num
  have hms : (market_share_percent c6_demo_brands).map ShareEntry.percent =
      [167/10, 167/10, 167/10, 167/10, 167/10, 167/10] := by
    simp [market_share_percent, value_counts, c6_demo_brands, top_brands_count,
      List.insertionSort, List.orderedInsert, List.count_cons, hval]
  refine ⟨?_, ?_, by decide⟩
  · rw [hms]
    norm_num
  · rw [hms]
    norm_num

/-- Three distinct brands appearing once each. -/
def c6_w_brands : List String := ["서로", "브랜드A", "브랜드B"]

/-- Witness for C6: with 3 distinct brands the unrounded reported shares sum
to exactly 100. -/
theorem c6_market_share_sums_w :
    (((value_counts c6_w_brands).take top_brands_count).map
        fun bc => (bc.2 : ℚ) / c6_w_brands.length * 100).sum = 100 :=
  (c6_market_share_sums c6_w_brands (by decide)).2.1 (by decide)

theorem analyze_category_ok_of_safe (category_name : String) (t : Table)
    (h : category_safe t) : ∃ r, analyze_category category_name t = .ok r := by
  suffices hne : analyze_category category_name t ≠ .error () by
    rcases hE : analyze_category category_name t with e | r
    · cases e
      exact absurd hE hne
    · exact ⟨r, rfl⟩
  by_cases h1 : t.rows.isEmpty
  · simp [analyze_category, h1]
  by_cases hr : "평점" ∈ t.cols
  case neg =>
    have hsearch : rating_col_search rating_candidates t.cols = .earlyReturn := by
      simp [rating_col_search, rating_candidates, hr]
    simp [analyze_category, h1, hsearch]
  case pos =>
    have hsearch : rating_col_search rating_candidates t.cols = .found "평점" := by
      simp [rating_col_search, rating_candidates, hr]
    rcases h with hempty | hnocol | ⟨hb, hrest⟩
    · exact absurd (by simp [hempty] : t.rows.isEmpty = true) h1
    · exact absurd hr hnocol
    · by_cases h4 : (required_for_analysis.filter fun c => decide (c ∈ t.cols)).length < 2
      · simp [analyze_category, h1, hsearch, hb, h4]
      rcases hrest with hlt | huniq | hsub
      · exact absurd hlt h4
      · have hu : ∀ a ∈ unique_products_of
            (required_for_analysis.filter fun c => decide (c ∈ t.cols)) t,
            ¬ a.key.brand = some our_brand := by
          intro a ha
          have hx := List.filter_eq_nil_iff.mp huniq a ha
          simpa using hx
        simp only [analyze_category, h1, hsearch, hb, h4] at *
        simp [analyze_category, h1, hsearch, hb, h4]
        exact fun x hx hbr => absurd hbr (hu x hx)
      · simp [analyze_category, h1, hsearch, hb, h4]
        exact fun x hx hbr => hsub

/-- Claim C3 (amended): the top-level analyzer returns the null triple
exactly on the empty input list (and never otherwise); on a non-empty list it
returns a non-null report whenever both category tables avoid the unguarded
identity-column access of the our-product detail loop (`category_safe`) — on
tables that do hit it (our-brand rows present, 평점 present, but 제품명 /
용량(ml) / 개수 not all available) a `KeyError` escapes instead. -/
theorem c3_analyze_contract :
    (∀ now, analyze_business_critical_data now [] = .ok none) ∧
    (∀ now (df_list : List Table), df_list ≠ [] →
      analyze_business_critical_data now df_list ≠ .ok none) ∧
    (∀ now (df_list : List Table), df_list ≠ [] →
      category_safe (separate_product_types (combine_tables df_list)).1 →
      category_safe (separate_product_types (combine_tables df_list)).2 →
      ∃ rep hm al,
        analyze_business_critical_data now df_list = .ok (some (rep, hm, al))) := by
  refine ⟨fun now => rfl, ?_, ?_⟩
  · intro now df_list hne
    have hnem : df_list.isEmpty = false := by simpa [List.isEmpty_iff] using hne
    unfold analyze_business_critical_data
    rw [if_neg (by simp [hnem])]
    cases h1 : analyze_category "수제 제품" (separate_product_types
        (combine_tables df_list)).1 with
    | error e1 =>
      cases h2 : analyze_category "전체 제품" (separate_product_types
          (combine_tables df_list)).2 with
      | error e2 => simp
      | ok r2 => simp
    | ok r1 =>
      cases h2 : analyze_category "전체 제품" (separate_product_types
          (combine_tables df_list)).2 with
      | error e2 => simp
      | ok r2 => simp
  · intro now df_list hne hs1 hs2
    have hnem : df_list.isEmpty = false := by simpa [List.isEmpty_iff] using hne
    obtain ⟨r1, h1⟩ := analyze_category_ok_of_safe "수제 제품" _ hs1
    obtain ⟨r2, h2⟩ := analyze_category_ok_of_safe "전체 제품" _ hs2
    have hok : ∃ x, analyze_business_critical_data now df_list = .ok (some x) := by
      unfold analyze_business_critical_data
      rw [if_neg (by simp [hnem]), h1, h2]
      exact ⟨_, rfl⟩
    obtain ⟨⟨rep, hm, al⟩, hx⟩ := hok
    exact ⟨rep, hm, al, hx⟩

/-- A table whose our-brand row, 평점 column and missing 용량(ml)/개수
columns drive the our-product detail loop into its unguarded column
access. -/
def c3_failing_table : Table :=
  { cols := ["브랜드", "제품명", "평점"]
    rows := [{ brand := some our_brand, productName := some "수정과", rating := some 4 }] }

/-- Counterexample to C3 as stated: a non-empty input list on which the
pipeline raises (`KeyError` on 용량(ml)) instead of returning a report. -/
theorem c3_uncaught_keyerror_cex :
    analyze_business_critical_data "2026-01-01T00:00" [c3_failing_table] = .error () := rfl

/-- A fully-populated single listing row. -/
def c3_w_row : Row :=
  { brand := some our_brand, productName := some "수정과", volume := some 500,
    packCount := some 1, unitPrice := some 1000, isFactory := some 0,
    reviewCnt := some 50, rating := some 4.6, platform := some "네이버" }

/-- A fully-populated single-row table satisfying both safety conditions. -/
def c3_w_table : Table :=
  { cols := ["브랜드", "제품명", "용량(ml)", "개수", "평점", "리뷰 개수", "플랫폼",
      "최저가 단위가격(100ml당)", "공장형 여부"]
    rows := [c3_w_row] }

/-- Witness for C3 on a well-formed non-empty input. -/
theorem c3_analyze_contract_w :
    ∃ rep hm al, analyze_business_critical_data "2026-01-01T00:00" [c3_w_table] =
      .ok (some (rep, hm, al)) :=
  c3_analyze_contract.2.2 "2026-01-01T00:00" [c3_w_table] (by simp)
    (Or.inr (Or.inr ⟨by decide, Or.inr (Or.inr (by decide))⟩))
    (Or.inr (Or.inr ⟨by decide, Or.inr (Or.inr (by decide))⟩))

/-- Claim C9: for a fixed input list the pipeline is deterministic — two runs
differing only in the generation timestamp produce outcomes identical in
every modelled field except that timestamp. -/
theorem c9_pipeline_deterministic (ts1 ts2 : String) (df_list : List Table) :
    strip_timestamp (analyze_business_critical_data ts1 df_list) =
      strip_timestamp (analyze_business_critical_data ts2 df_list) := by
  unfold analyze_business_critical_data
  by_cases hdf : df_list.isEmpty
  · simp [hdf]
  · simp only [hdf, Bool.false_eq_true, if_false]
    cases h1 : analyze_category "수제 제품" (separate_product_types
        (combine_tables df_list)).1 with
    | error e1 =>
      cases h2 : analyze_category "전체 제품" (separate_product_types
          (combine_tables df_list)).2 with
      | error e2 => rfl
      | ok r2 => rfl
    | ok r1 =>
      cases h2 : analyze_category "전체 제품" (separate_product_types
          (combine_tables df_list)).2 with
      | error e2 => rfl
      | ok r2 => rfl
